import Mathlib

/-!
# move_group: capability registry and startup sequence

A shallow embedding of `moveit_ros/move_group/src/move_group.cpp`:

* `std::string` is a list of characters (`CppString`), compared the way
  `std::less<std::string>` compares (character by character on the unsigned
  code, a proper prefix first);
* `std::set<std::string>` is the ascending list of its elements, with
  `set_insert` and `set_erase` searching by the comparator;
* `boost::tokenizer<boost::char_separator<char>>` is an iterator that is
  advanced by `char_separator_call`;
* exceptions are values of `Exn`, and a `try`/`catch` clause for
  `pluginlib::PluginlibException` handles `Exn.pluginlib` only;
* console and log output is an explicit list of `Event`s.
-/

namespace move_group

/-! ## Strings and their order -/

/-- A `std::string`: the sequence of its characters. -/
abbrev CppString := List Char

/-- The order `std::less<std::string>`: lexicographic on the character codes,
a proper prefix before its extensions. -/
def strLt : CppString → CppString → Bool
  | [], [] => false
  | [], _ :: _ => true
  | _ :: _, [] => false
  | a :: as, b :: bs =>
    if a.toNat < b.toNat then true
    else if b.toNat < a.toNat then false
    else strLt as bs

/-! ## `std::set<std::string>` -/

/-- The call `std::set::insert(x)`: the search descends by the comparator and
the element is added only when no equivalent element is present. -/
def set_insert (x : CppString) : List CppString → List CppString
  | [] => [x]
  | y :: ys =>
    if strLt x y then x :: y :: ys
    else if strLt y x then y :: set_insert x ys
    else y :: ys

/-- The call `std::set::erase(x)` by key: removes the element equivalent to `x`,
if there is one. -/
def set_erase (x : CppString) : List CppString → List CppString
  | [] => []
  | y :: ys =>
    if strLt y x then y :: set_erase x ys
    else if strLt x y then y :: ys
    else ys

/-- The range insertion `capabilities.insert(first, last)`, and the loop that
inserts every default name. -/
def set_insert_range (xs : List CppString) (s : List CppString) : List CppString :=
  xs.foldl (fun acc x => set_insert x acc) s

/-- The loop `for (cap_name = tok.begin(); cap_name != tok.end(); ++cap_name)
capabilities.erase(*cap_name)`. -/
def set_erase_each (xs : List CppString) (s : List CppString) : List CppString :=
  xs.foldl (fun acc x => set_erase x acc) s

/-! ## `boost::tokenizer` with a `boost::char_separator<char>` -/

/-- The test `char_separator::is_dropped` for a separator built from a non-empty
string of dropped delimiters: the character occurs in that string. -/
def is_dropped (dropped_delims : List Char) (c : Char) : Bool :=
  dropped_delims.contains c

/-- One call of `char_separator::operator()` under the default
`drop_empty_tokens` policy and without kept delimiters: skip the dropped
delimiters, stop if the input is exhausted, otherwise take all the characters up
to the next delimiter.  Returns the token and the remaining input. -/
def char_separator_call (dropped_delims : List Char) (next : List Char) :
    Option (CppString × List Char) :=
  match next.dropWhile (is_dropped dropped_delims) with
  | [] => none
  | c :: cs =>
    some ((c :: cs).takeWhile (fun e => !is_dropped dropped_delims e),
          (c :: cs).dropWhile (fun e => !is_dropped dropped_delims e))

/-- Iterating the tokenizer from `begin()` to `end()`, at most `fuel` tokens. -/
def tokenizer_iter (dropped_delims : List Char) : Nat → List Char → List CppString
  | 0, _ => []
  | fuel + 1, next =>
    match char_separator_call dropped_delims next with
    | none => []
    | some (tok, rest) => tok :: tokenizer_iter dropped_delims fuel rest

/-- The token sequence of `boost::tokenizer<boost::char_separator<char>> tok(s, sep)`.
Every token consumes a character, so `s.length + 1` steps exhaust the input. -/
def tokenizer (dropped_delims : List Char) (s : CppString) : List CppString :=
  tokenizer_iter dropped_delims (s.length + 1) s

/-- The separator of the source, `boost::char_separator<char> sep(" ")`. -/
def sep : List Char := [' ']

/-- The names read from a string parameter: `get_parameter` yields nothing when
the parameter is not set, and the block that tokenizes is skipped. -/
def parameter_tokens : Option CppString → List CppString
  | none => []
  | some capability_plugins => tokenizer sep capability_plugins

/-! ## The set of capabilities to load -/

/-- The capabilities that are loaded unless listed in `disable_capabilities`. -/
def DEFAULT_CAPABILITIES : List CppString :=
  [ "move_group/MoveGroupCartesianPathService".toList,
    "move_group/MoveGroupKinematicsService".toList,
    "move_group/MoveGroupExecuteTrajectoryAction".toList,
    "move_group/MoveGroupMoveAction".toList,
    "move_group/MoveGroupPlanService".toList,
    "move_group/MoveGroupQueryPlannersService".toList,
    "move_group/MoveGroupStateValidationService".toList,
    "move_group/MoveGroupGetPlanningSceneService".toList,
    "move_group/ApplyPlanningSceneService".toList,
    "move_group/ClearOctomapService".toList ]

/-- The local `std::set<std::string> capabilities` of `configureCapabilities`
when the loading loop starts: the defaults are inserted, then the tokens of the
`capabilities` parameter, then the tokens of `disable_capabilities` are erased. -/
def capabilities_to_load (defaults : List CppString)
    (capabilities disable_capabilities : Option CppString) : List CppString :=
  set_erase_each (parameter_tokens disable_capabilities)
    (set_insert_range (parameter_tokens capabilities)
      (set_insert_range defaults []))

/-! ## Exceptions, plugins and output -/

/-- An exception in flight.  `pluginlib` stands for `pluginlib::PluginlibException`
and the classes derived from it, `other` for an exception of any other type. -/
inductive Exn where
  | pluginlib (what : String)
  | other (what : String)
  deriving DecidableEq, Repr

/-- The result of a call that may throw. -/
inductive Outcome (α : Type) where
  | returns (a : α)
  | throws (e : Exn)
  deriving DecidableEq, Repr

/-- A capability instance as far as the registry uses it: `getName()`, and in
`init_throws` what the call `cap->initialize()` does: `none` for a normal return and
`some e` when it throws `e`. -/
structure MoveGroupCapability where
  getName : String
  init_throws : Option Exn
  deriving DecidableEq, Repr

/-- The plugin loader `pluginlib::ClassLoader<MoveGroupCapability>`. -/
structure ClassLoader where
  createUniqueInstance : CppString → Outcome MoveGroupCapability

/-- The `MoveGroupContext` as far as this file reads it. -/
structure MoveGroupContext where
  allow_trajectory_execution_ : Bool
  debug_ : Bool
  status : Bool
  deriving DecidableEq, Repr

/-- Output and calls to collaborators that the program performs, in order. -/
inductive Event where
  | printf_loading (capability : CppString)
  | fatal_plugin_loader (what : String)
  | error_loading (capability : CppString) (what : String)
  | info_using (names : List String)
  | printf_no_capabilities
  | printf_start_planning
  | error_no_context
  | wait_for_service
  | error_interrupted
  | info_waiting
  | get_parameter (param_name : CppString)
  | info_debug_on
  | info_debug_off
  | start_monitors
  | publishDebugInformation (flag : Bool)
  | executor_spin
  | shutdown
  | error_scene_not_configured
  deriving DecidableEq, Repr

/-- The state after the loading loop stopped: the registry, the output so far and
the exception that left the loop, if one did. -/
structure LoadResult where
  capabilities_ : List MoveGroupCapability
  events : List Event
  thrown : Option Exn
  deriving DecidableEq, Repr

/-- The loop `for (const std::string& capability : capabilities)` of
`configureCapabilities`.  Each pass prints "Loading ...", creates the instance,
initializes it and appends it to `capabilities_`.  The `catch` clause names
`pluginlib::PluginlibException`: such an exception is logged and the loop goes on, any
other leaves the loop.  The setter `cap->setContext(context_)` has no outcome to
model. -/
def load_capabilities (loader : ClassLoader) :
    List CppString → List MoveGroupCapability → List Event → LoadResult
  | [], caps, evs => ⟨caps, evs, none⟩
  | capability :: rest, caps, evs =>
    match loader.createUniqueInstance capability with
    | .throws (.pluginlib what) =>
      load_capabilities loader rest caps
        (evs ++ [.printf_loading capability, .error_loading capability what])
    | .throws (.other what) => ⟨caps, evs ++ [.printf_loading capability], some (.other what)⟩
    | .returns cap =>
      match cap.init_throws with
      | none => load_capabilities loader rest (caps ++ [cap]) (evs ++ [.printf_loading capability])
      | some (.pluginlib what) =>
        load_capabilities loader rest caps
          (evs ++ [.printf_loading capability, .error_loading capability what])
      | some (.other what) => ⟨caps, evs ++ [.printf_loading capability], some (.other what)⟩

/-- The registry object `MoveGroupExe`. -/
structure MoveGroupExe where
  context_ : Option MoveGroupContext
  capability_plugin_loader_ : Option ClassLoader
  capabilities_ : List MoveGroupCapability

/-- What a member function leaves behind: the object, the output, and the
exception that left the call, if one did. -/
structure CallResult where
  self : MoveGroupExe
  events : List Event
  thrown : Option Exn

/-- The member `MoveGroupExe::configureCapabilities`.  `new_loader` is the outcome of
`new pluginlib::ClassLoader<MoveGroupCapability>(...)`. -/
def configureCapabilities (new_loader : Outcome ClassLoader) (defaults : List CppString)
    (capabilities disable_capabilities : Option CppString) (self : MoveGroupExe) : CallResult :=
  match new_loader with
  | .throws (.pluginlib what) => ⟨self, [.fatal_plugin_loader what], none⟩
  | .throws (.other what) => ⟨self, [], some (.other what)⟩
  | .returns loader =>
    let r := load_capabilities loader
      (capabilities_to_load defaults capabilities disable_capabilities) self.capabilities_ []
    match r.thrown with
    | some e =>
      ⟨{ self with capability_plugin_loader_ := some loader, capabilities_ := r.capabilities_ },
        r.events, some e⟩
    | none =>
      ⟨{ self with capability_plugin_loader_ := some loader, capabilities_ := r.capabilities_ },
        r.events ++ [.info_using (r.capabilities_.map (·.getName))], none⟩

/-- The member `MoveGroupExe::status`. -/
def status (self : MoveGroupExe) : List Event :=
  match self.context_ with
  | some context =>
    if context.status then
      if self.capabilities_.isEmpty then [.printf_no_capabilities]
      else [.printf_start_planning]
    else []
  | none => [.error_no_context]

/-! ## Fetching a parameter from a remote node -/

/-- What one pass of the polling loop observes: the result of
`parameters_client->wait_for_service(0.5s)`, and the value `rclcpp::ok()` has when
it is read after that wait. -/
structure PollTick where
  service_available : Bool
  ok : Bool
  deriving DecidableEq, Repr

/-- The loop of `getParameterFromRemoteNode<T>` from pass `i` on, and the final
`get_parameter<T>(param_name, T())`.  `default_value` is `T()`, `remote` the parameters
of the remote node.  `none` means the loop is still polling after `fuel` passes. -/
def poll_loop {T : Type} (default_value : T) (ticks : Nat → PollTick)
    (remote : CppString → Option T) (param_name : CppString) :
    Nat → Nat → List Event → Option (T × List Event)
  | 0, _, _ => none
  | fuel + 1, i, evs =>
    if (ticks i).service_available then
      some ((remote param_name).getD default_value,
        evs ++ [.wait_for_service, .get_parameter param_name])
    else if !(ticks i).ok then
      some (default_value, evs ++ [.wait_for_service, .error_interrupted])
    else
      poll_loop default_value ticks remote param_name fuel (i + 1)
        (evs ++ [.wait_for_service, .info_waiting])

/-- The function template `getParameterFromRemoteNode<T>(node, node_name, param_name)`. -/
def getParameterFromRemoteNode {T : Type} (default_value : T) (ticks : Nat → PollTick)
    (remote : CppString → Option T) (param_name : CppString) (fuel : Nat) :
    Option (T × List Event) :=
  poll_loop default_value ticks remote param_name fuel 0 []

/-! ## The process -/

/-- The configuration and collaborators the process meets at startup. -/
structure World where
  argv : List CppString
  ticks : Nat → PollTick
  robot_state_publisher : CppString → Option CppString
  allow_trajectory_execution : Option Bool
  capabilities : Option CppString
  disable_capabilities : Option CppString
  new_loader : Outcome ClassLoader
  context_status : Bool
  has_planning_scene : Bool

/-- The constructor `MoveGroupExe::MoveGroupExe(n, psm, debug)`. -/
def MoveGroupExe.construct (w : World) (debug : Bool) : CallResult :=
  let allow_trajectory_execution := w.allow_trajectory_execution.getD true
  let context : MoveGroupContext := ⟨allow_trajectory_execution, debug, w.context_status⟩
  configureCapabilities w.new_loader DEFAULT_CAPABILITIES w.capabilities w.disable_capabilities
    ⟨some context, none, []⟩

/-- The test `strncmp(s, t, n) == 0`: the first `n` characters agree, or both
strings end at the same place before that. -/
def strncmp_is_zero : CppString → CppString → Nat → Bool
  | _, _, 0 => true
  | [], [], _ + 1 => true
  | a :: s, b :: t, n + 1 => a == b && strncmp_is_zero s t n
  | _, _, _ + 1 => false

/-- The value of `debug` after the loop over `argv[1]`, ..., `argv[argc - 1]`. -/
def debug_after_scan (argv : List CppString) : Bool :=
  (argv.drop 1).any (fun arg => strncmp_is_zero arg "--debug".toList 7)

/-- The value of `debug` that `main` goes on to use: the loop over the arguments is
followed by the assignment `debug = true;`. -/
def debug_flag (argv : List CppString) : Bool :=
  let _debug := debug_after_scan argv
  true

/-- How the process ends: `main` returns a code, or an exception that nothing
catches leaves `main`. -/
inductive Exit where
  | returned (code : Int)
  | uncaught (e : Exn)
  deriving DecidableEq, Repr

/-- The function `main`.  `none` means that the fetch of `robot_description` is still
polling after `fuel` passes. -/
def main (w : World) (fuel : Nat) : Option (Exit × List Event) :=
  match getParameterFromRemoteNode ([] : CppString) w.ticks w.robot_state_publisher
      "robot_description".toList fuel with
  | none => none
  | some (_str, evs) =>
    if w.has_planning_scene then
      let debug := debug_flag w.argv
      let evs := evs ++ [if debug then .info_debug_on else .info_debug_off, .start_monitors]
      let mge := MoveGroupExe.construct w debug
      match mge.thrown with
      | some e => some (.uncaught e, evs ++ mge.events)
      | none =>
        some (.returned 0,
          evs ++ mge.events ++ [.publishDebugInformation debug] ++ status mge.self
            ++ [.executor_spin, .shutdown])
    else
      some (.returned 0, evs ++ [.error_scene_not_configured])

/-- The representation invariant of the set: strictly ascending. -/
def Ascending (s : List CppString) : Prop :=
  s.Pairwise (fun a b => strLt a b = true)

instance (s : List CppString) : Decidable (Ascending s) := by
  unfold Ascending; infer_instance

/-! ## Observations used to state the properties -/

/-- The instance that the loop registers for `capability`: the loader returns one
and initializing it returns normally. -/
def load_ok (loader : ClassLoader) (capability : CppString) : Option MoveGroupCapability :=
  match loader.createUniqueInstance capability with
  | .returns cap => if cap.init_throws = none then some cap else none
  | .throws _ => none

/-- The message of the `pluginlib::PluginlibException` that loading `capability`
throws, if it throws one. -/
def load_error (loader : ClassLoader) (capability : CppString) : Option String :=
  match loader.createUniqueInstance capability with
  | .throws (.pluginlib what) => some what
  | .throws (.other _) => none
  | .returns cap =>
    match cap.init_throws with
    | some (.pluginlib what) => some what
    | _ => none

/-- The exception of another type that loading `capability` throws, if it throws
one. -/
def load_escape (loader : ClassLoader) (capability : CppString) : Option Exn :=
  match loader.createUniqueInstance capability with
  | .throws (.pluginlib _) => none
  | .throws (.other what) => some (.other what)
  | .returns cap =>
    match cap.init_throws with
    | some (.other what) => some (.other what)
    | _ => none

/-- The name in a "Loading ..." line. -/
def Event.loading_name : Event → Option CppString
  | .printf_loading capability => some capability
  | _ => none

/-- The name in an "Exception while loading move_group capability" line. -/
def Event.error_name : Event → Option CppString
  | .error_loading capability _ => some capability
  | _ => none

/-- The names up to and including the first one whose load throws an exception
that is not a `pluginlib::PluginlibException`. -/
def attempted (loader : ClassLoader) : List CppString → List CppString
  | [] => []
  | capability :: rest =>
    if (load_escape loader capability).isSome then [capability]
    else capability :: attempted loader rest

/-- The first exception among the loads of the names that is not a
`pluginlib::PluginlibException`. -/
def first_escape (loader : ClassLoader) : List CppString → Option Exn
  | [] => none
  | capability :: rest =>
    match load_escape loader capability with
    | some e => some e
    | none => first_escape loader rest

/-- The output of one pass of the loading loop. -/
def load_events (loader : ClassLoader) (capability : CppString) : List Event :=
  match load_error loader capability with
  | some what => [.printf_loading capability, .error_loading capability what]
  | none => [.printf_loading capability]

/-- The names for which a call printed a "Loading ..." line, in the order of the
lines: the load attempts. -/
def tried_names (r : CallResult) : List CppString :=
  r.events.filterMap Event.loading_name

/-- The names for which a call logged a load error, in the order of the lines. -/
def failed_names (r : CallResult) : List CppString :=
  r.events.filterMap Event.error_name

/-- The maximal runs of characters other than `delim` in `s`: the pieces between
the occurrences of `delim`, the empty pieces left out. -/
def maximal_runs (delim : Char) (s : CppString) : List CppString :=
  (s.splitOnP (· == delim)).filter (fun piece => !piece.isEmpty)

/-- The non-empty pieces of `s` between the characters that satisfy `p`. -/
def pieces (p : Char → Bool) (s : List Char) : List CppString :=
  (s.splitOnP p).filter (fun piece => !piece.isEmpty)

/-- The pieces of `s` that follow its first run of characters that do not satisfy
`p`. -/
def pieces_after_run (p : Char → Bool) (s : List Char) : List (List Char) :=
  match s.dropWhile (fun e => !p e) with
  | [] => []
  | _ :: rest => rest.splitOnP p

/-! ## Concrete collaborators for the instances -/

/-- The instance a loader creates for a name that loads. -/
def plain_capability (getName : String) : MoveGroupCapability :=
  ⟨getName, none⟩

/-- A loader for which creating `X` throws an exception that is not a
`pluginlib::PluginlibException`, and every other name loads. -/
def loader_X_throws_other : ClassLoader :=
  ⟨fun capability =>
    if capability = "X".toList then .throws (.other "std::runtime_error in the constructor")
    else .returns (plain_capability (String.mk capability))⟩

/-- A loader for which `X` is not a known class (a `pluginlib::PluginlibException`),
and every other name loads. -/
def loader_X_unknown : ClassLoader :=
  ⟨fun capability =>
    if capability = "X".toList then .throws (.pluginlib "class X is not declared")
    else .returns (plain_capability (String.mk capability))⟩

/-- The output of `n` passes of the polling loop that find the service unavailable
and the process not cancelled. -/
def waiting_passes : Nat → List Event
  | 0 => []
  | n + 1 => [.wait_for_service, .info_waiting] ++ waiting_passes n

/-- A peer whose parameter service answers the first wait, and that has the
parameter `robot_description`. -/
def peer_ready : Nat → PollTick := fun _ => ⟨true, true⟩

/-- A peer whose parameter service answers the first wait while the process has
already been cancelled. -/
def peer_ready_cancelled : Nat → PollTick := fun _ => ⟨true, false⟩

/-- A peer whose parameter service never answers, the process cancelled from the
start. -/
def peer_absent_cancelled : Nat → PollTick := fun _ => ⟨false, false⟩

/-- The parameters of the node `robot_state_publisher`. -/
def urdf_parameters : CppString → Option CppString := fun param_name =>
  if param_name = "robot_description".toList then some "<robot/>".toList else none

/-- A start without `--debug`, with a planning scene, in which the constructor of the
plugin loader throws a `pluginlib::PluginlibException`. -/
def world_loader_fails : World where
  argv := ["move_group".toList]
  ticks := peer_ready
  robot_state_publisher := urdf_parameters
  allow_trajectory_execution := none
  capabilities := none
  disable_capabilities := none
  new_loader := .throws (.pluginlib "package not found")
  context_status := true
  has_planning_scene := true

/-- A start in which the planning scene monitor has no planning scene. -/
def world_no_scene : World where
  argv := ["move_group".toList]
  ticks := peer_ready
  robot_state_publisher := urdf_parameters
  allow_trajectory_execution := none
  capabilities := none
  disable_capabilities := none
  new_loader := .returns loader_X_unknown
  context_status := true
  has_planning_scene := false

/-- A start without `--debug` in which everything is available and only the
capabilities `X` and `Y` are requested, all defaults disabled. -/
def world_no_debug_option : World where
  argv := ["move_group".toList, "--ros-args".toList]
  ticks := peer_ready
  robot_state_publisher := urdf_parameters
  allow_trajectory_execution := none
  capabilities := some "Y X".toList
  disable_capabilities := some ("move_group/MoveGroupCartesianPathService " ++
    "move_group/MoveGroupKinematicsService move_group/MoveGroupExecuteTrajectoryAction " ++
    "move_group/MoveGroupMoveAction move_group/MoveGroupPlanService " ++
    "move_group/MoveGroupQueryPlannersService move_group/MoveGroupStateValidationService " ++
    "move_group/MoveGroupGetPlanningSceneService move_group/ApplyPlanningSceneService " ++
    "move_group/ClearOctomapService").toList
  new_loader := .returns loader_X_unknown
  context_status := true
  has_planning_scene := true

/-! ## The order on strings -/

theorem char_eq_of_toNat_eq {a b : Char} (h : a.toNat = b.toNat) : a = b := by
  apply Char.ext
  apply UInt32.ext
  exact h

theorem strLt_irrefl (a : CppString) : strLt a a = false := by
  induction a with
  | nil => rfl
  | cons c cs ih => simp [strLt, ih]

theorem strLt_trans : ∀ {a b c : CppString}, strLt a b = true → strLt b c = true →
    strLt a c = true
  | [], [], _, h, _ => by simp [strLt] at h
  | [], _ :: _, [], _, h => by simp [strLt] at h
  | [], _ :: _, _ :: _, _, _ => by simp [strLt]
  | _ :: _, [], _, h, _ => by simp [strLt] at h
  | _ :: _, _ :: _, [], _, h => by simp [strLt] at h
  | x :: xs, y :: ys, z :: zs, h1, h2 => by
    simp only [strLt] at h1 h2 ⊢
    split_ifs at h1 h2 ⊢ <;> first
      | rfl
      | omega
      | exact strLt_trans h1 h2

theorem strLt_asymm {a b : CppString} (h : strLt a b = true) : strLt b a = false := by
  cases hb : strLt b a with
  | false => rfl
  | true =>
    have := strLt_trans h hb
    rw [strLt_irrefl] at this
    exact absurd this (by simp)

theorem strLt_trichotomy : ∀ {a b : CppString}, strLt a b = false → strLt b a = false → a = b
  | [], [], _, _ => rfl
  | [], _ :: _, h, _ => by simp [strLt] at h
  | _ :: _, [], _, h => by simp [strLt] at h
  | x :: xs, y :: ys, h1, h2 => by
    simp only [strLt] at h1 h2
    by_cases h3 : x.toNat < y.toNat
    · simp [h3] at h1
    · by_cases h4 : y.toNat < x.toNat
      · simp [h4] at h2
      · simp only [h3, h4, if_false] at h1 h2
        have hxy : x = y := char_eq_of_toNat_eq (by omega)
        rw [hxy, strLt_trichotomy h1 h2]

/-! ## The set operations keep the list ascending -/

theorem mem_set_insert (x y : CppString) (s : List CppString) :
    y ∈ set_insert x s ↔ y = x ∨ y ∈ s := by
  induction s with
  | nil => simp [set_insert]
  | cons z zs ih =>
    simp only [set_insert]
    split_ifs with h1 h2
    · simp
    · simp only [List.mem_cons, ih]
      tauto
    · have hxz : x = z := strLt_trichotomy (by simpa using h1) (by simpa using h2)
      subst hxz
      simp

theorem ascending_set_insert (x : CppString) (s : List CppString) (hs : Ascending s) :
    Ascending (set_insert x s) := by
  induction s with
  | nil => simp [set_insert, Ascending]
  | cons z zs ih =>
    unfold Ascending at hs ih ⊢
    rw [List.pairwise_cons] at hs
    simp only [set_insert]
    split_ifs with h1 h2
    · rw [List.pairwise_cons]
      refine ⟨?_, List.pairwise_cons.mpr hs⟩
      intro a ha
      rcases List.mem_cons.mp ha with rfl | ha
      · exact h1
      · exact strLt_trans h1 (hs.1 a ha)
    · rw [List.pairwise_cons]
      refine ⟨?_, ih hs.2⟩
      intro a ha
      rcases (mem_set_insert x a zs).mp ha with rfl | ha
      · exact h2
      · exact hs.1 a ha
    · exact List.pairwise_cons.mpr hs

theorem mem_set_erase (x y : CppString) (s : List CppString) (hs : Ascending s) :
    y ∈ set_erase x s ↔ y ∈ s ∧ y ≠ x := by
  induction s with
  | nil => simp [set_erase]
  | cons z zs ih =>
    unfold Ascending at hs ih
    rw [List.pairwise_cons] at hs
    simp only [set_erase]
    split_ifs with h1 h2
    · simp only [List.mem_cons, ih hs.2]
      constructor
      · rintro (rfl | ⟨h, hne⟩)
        · refine ⟨Or.inl rfl, ?_⟩
          rintro rfl
          rw [strLt_irrefl] at h1
          exact absurd h1 (by simp)
        · exact ⟨Or.inr h, hne⟩
      · rintro ⟨rfl | h, hne⟩
        · exact Or.inl rfl
        · exact Or.inr ⟨h, hne⟩
    · constructor
      · intro h
        refine ⟨h, ?_⟩
        rintro rfl
        rcases List.mem_cons.mp h with rfl | h
        · rw [strLt_irrefl] at h2
          exact absurd h2 (by simp)
        · have := strLt_trans h2 (hs.1 y h)
          rw [strLt_irrefl] at this
          exact absurd this (by simp)
      · exact fun h => h.1
    · have hxz : x = z := strLt_trichotomy (by simpa using h2) (by simpa using h1)
      subst hxz
      constructor
      · intro h
        refine ⟨List.mem_cons_of_mem _ h, ?_⟩
        rintro rfl
        have := hs.1 y h
        rw [strLt_irrefl] at this
        exact absurd this (by simp)
      · rintro ⟨h, hne⟩
        rcases List.mem_cons.mp h with rfl | h
        · exact absurd rfl hne
        · exact h

theorem sublist_set_erase (x : CppString) (s : List CppString) :
    (set_erase x s).Sublist s := by
  induction s with
  | nil => simp [set_erase]
  | cons z zs ih =>
    simp only [set_erase]
    split_ifs
    · exact ih.cons₂ z
    · exact List.Sublist.refl _
    · exact List.sublist_cons_self z zs

theorem ascending_set_erase (x : CppString) (s : List CppString) (hs : Ascending s) :
    Ascending (set_erase x s) :=
  List.Pairwise.sublist (sublist_set_erase x s) hs

theorem ascending_set_insert_range (xs s : List CppString) (hs : Ascending s) :
    Ascending (set_insert_range xs s) := by
  induction xs generalizing s with
  | nil => exact hs
  | cons x xs ih => exact ih _ (ascending_set_insert x s hs)

theorem mem_set_insert_range (xs s : List CppString) (y : CppString) :
    y ∈ set_insert_range xs s ↔ y ∈ xs ∨ y ∈ s := by
  induction xs generalizing s with
  | nil => simp [set_insert_range]
  | cons x xs ih =>
    show y ∈ set_insert_range xs (set_insert x s) ↔ _
    rw [ih, mem_set_insert, List.mem_cons]
    tauto

theorem ascending_set_erase_each (xs s : List CppString) (hs : Ascending s) :
    Ascending (set_erase_each xs s) := by
  induction xs generalizing s with
  | nil => exact hs
  | cons x xs ih => exact ih _ (ascending_set_erase x s hs)

theorem mem_set_erase_each (xs s : List CppString) (hs : Ascending s) (y : CppString) :
    y ∈ set_erase_each xs s ↔ y ∈ s ∧ y ∉ xs := by
  induction xs generalizing s with
  | nil => simp [set_erase_each]
  | cons x xs ih =>
    show y ∈ set_erase_each xs (set_erase x s) ↔ _
    rw [ih _ (ascending_set_erase x s hs), mem_set_erase x y s hs, List.mem_cons]
    tauto

/-- Two ascending lists with the same elements are the same list. -/
theorem ascending_ext : ∀ {s t : List CppString}, Ascending s → Ascending t →
    (∀ y, y ∈ s ↔ y ∈ t) → s = t
  | [], [], _, _, _ => rfl
  | [], b :: _, _, _, h => by simpa using h b
  | a :: _, [], _, _, h => by simpa using h a
  | a :: s, b :: t, hs, ht, h => by
    unfold Ascending at hs ht
    rw [List.pairwise_cons] at hs ht
    have hab : a = b := by
      have ha : a ∈ b :: t := (h a).mp (List.mem_cons_self a s)
      have hb : b ∈ a :: s := (h b).mpr (List.mem_cons_self b t)
      rcases List.mem_cons.mp ha with e | ha
      · exact e
      · rcases List.mem_cons.mp hb with e | hb
        · exact e.symm
        · have h1 := hs.1 b hb
          have h2 := ht.1 a ha
          rw [strLt_asymm h1] at h2
          exact absurd h2 (by simp)
    subst hab
    have hst : s = t := by
      apply ascending_ext hs.2 ht.2
      intro y
      constructor
      · intro hy
        rcases List.mem_cons.mp ((h y).mp (List.mem_cons_of_mem _ hy)) with e | h'
        · subst e
          have := hs.1 y hy
          rw [strLt_irrefl] at this
          exact absurd this (by simp)
        · exact h'
      · intro hy
        rcases List.mem_cons.mp ((h y).mpr (List.mem_cons_of_mem _ hy)) with e | h'
        · subst e
          have := ht.1 y hy
          rw [strLt_irrefl] at this
          exact absurd this (by simp)
        · exact h'
    rw [hst]

theorem ascending_capabilities_to_load (defaults : List CppString)
    (capabilities disable_capabilities : Option CppString) :
    Ascending (capabilities_to_load defaults capabilities disable_capabilities) :=
  ascending_set_erase_each _ _
    (ascending_set_insert_range _ _ (ascending_set_insert_range _ _ List.Pairwise.nil))

theorem mem_capabilities_to_load (defaults : List CppString)
    (capabilities disable_capabilities : Option CppString) (y : CppString) :
    y ∈ capabilities_to_load defaults capabilities disable_capabilities ↔
      (y ∈ defaults ∨ y ∈ parameter_tokens capabilities) ∧
        y ∉ parameter_tokens disable_capabilities := by
  unfold capabilities_to_load
  rw [mem_set_erase_each _ _
      (ascending_set_insert_range _ _ (ascending_set_insert_range _ _ List.Pairwise.nil)),
    mem_set_insert_range, mem_set_insert_range]
  simp
  tauto

/-! ## The loading loop -/

theorem load_capabilities_eq (loader : ClassLoader) (names : List CppString)
    (caps : List MoveGroupCapability) (evs : List Event) :
    load_capabilities loader names caps evs =
      ⟨caps ++ (attempted loader names).filterMap (load_ok loader),
        evs ++ (attempted loader names).flatMap (load_events loader),
        first_escape loader names⟩ := by
  induction names generalizing caps evs with
  | nil => simp [load_capabilities, attempted, first_escape]
  | cons n rest ih =>
    cases hc : loader.createUniqueInstance n with
    | throws e =>
      cases e with
      | pluginlib what =>
        simp [load_capabilities, attempted, first_escape, load_escape, load_ok, load_events,
          load_error, hc, ih]
      | other what =>
        simp [load_capabilities, attempted, first_escape, load_escape, load_ok, load_events,
          load_error, hc]
    | returns cap =>
      cases hi : cap.init_throws with
      | none =>
        simp [load_capabilities, attempted, first_escape, load_escape, load_ok, load_events,
          load_error, hc, hi, ih]
      | some e =>
        cases e with
        | pluginlib what =>
          simp [load_capabilities, attempted, first_escape, load_escape, load_ok, load_events,
            load_error, hc, hi, ih]
        | other what =>
          simp [load_capabilities, attempted, first_escape, load_escape, load_ok, load_events,
            load_error, hc, hi]

theorem attempted_prefix (loader : ClassLoader) (names : List CppString) :
    attempted loader names <+: names := by
  induction names with
  | nil => simp [attempted]
  | cons n rest ih =>
    simp only [attempted]
    split_ifs
    · exact ⟨rest, rfl⟩
    · exact (List.prefix_cons_inj n).mpr ih

theorem attempted_eq_of_no_escape (loader : ClassLoader) (names : List CppString)
    (h : ∀ n ∈ names, load_escape loader n = none) : attempted loader names = names := by
  induction names with
  | nil => rfl
  | cons n rest ih =>
    have hn := h n (List.mem_cons_self n rest)
    simp [attempted, hn, ih (fun m hm => h m (List.mem_cons_of_mem n hm))]

theorem first_escape_eq_none_iff (loader : ClassLoader) (names : List CppString) :
    first_escape loader names = none ↔ ∀ n ∈ names, load_escape loader n = none := by
  induction names with
  | nil => simp [first_escape]
  | cons n rest ih =>
    cases hn : load_escape loader n with
    | none => simp [first_escape, hn, ih]
    | some e => simp [first_escape, hn]

theorem loading_name_load_events (loader : ClassLoader) (names : List CppString) :
    (names.flatMap (load_events loader)).filterMap Event.loading_name = names := by
  induction names with
  | nil => rfl
  | cons n rest ih =>
    rw [List.flatMap_cons, List.filterMap_append, ih]
    unfold load_events
    cases load_error loader n <;> simp [Event.loading_name]

theorem error_name_load_events (loader : ClassLoader) (names : List CppString) :
    (names.flatMap (load_events loader)).filterMap Event.error_name =
      names.filter (fun n => (load_error loader n).isSome) := by
  induction names with
  | nil => rfl
  | cons n rest ih =>
    rw [List.flatMap_cons, List.filterMap_append, ih]
    unfold load_events
    cases h : load_error loader n <;> simp [Event.error_name, h]

theorem filterMap_filter_isSome {α β : Type} (f : α → Option β) (l : List α) :
    (l.filter (fun a => (f a).isSome)).filterMap f = l.filterMap f := by
  induction l with
  | nil => rfl
  | cons a l ih =>
    cases h : f a <;> simp [List.filter_cons, List.filterMap_cons, h, ih]

theorem length_filterMap_eq_length_filter {α β : Type} (f : α → Option β) (l : List α) :
    (l.filterMap f).length = (l.filter (fun a => (f a).isSome)).length := by
  induction l with
  | nil => rfl
  | cons a l ih =>
    cases h : f a <;> simp [List.filter_cons, List.filterMap_cons, h, ih]

theorem configureCapabilities_returns (loader : ClassLoader) (defaults : List CppString)
    (capabilities disable_capabilities : Option CppString) (context_ : Option MoveGroupContext)
    (old : Option ClassLoader) :
    (configureCapabilities (.returns loader) defaults capabilities disable_capabilities
        ⟨context_, old, []⟩).self.capabilities_ =
      (attempted loader (capabilities_to_load defaults capabilities disable_capabilities)).filterMap
        (load_ok loader) ∧
    tried_names (configureCapabilities (.returns loader) defaults capabilities
        disable_capabilities ⟨context_, old, []⟩) =
      attempted loader (capabilities_to_load defaults capabilities disable_capabilities) ∧
    failed_names (configureCapabilities (.returns loader) defaults capabilities
        disable_capabilities ⟨context_, old, []⟩) =
      (attempted loader (capabilities_to_load defaults capabilities disable_capabilities)).filter
        (fun n => (load_error loader n).isSome) ∧
    (configureCapabilities (.returns loader) defaults capabilities disable_capabilities
        ⟨context_, old, []⟩).thrown =
      first_escape loader (capabilities_to_load defaults capabilities disable_capabilities) := by
  simp only [configureCapabilities, load_capabilities_eq, tried_names, failed_names]
  cases first_escape loader (capabilities_to_load defaults capabilities disable_capabilities) <;>
    simp [loading_name_load_events, error_name_load_events, Event.loading_name,
      Event.error_name]

theorem capabilities_to_load_congr (D D' : List CppString) (c c' d d' : Option CppString)
    (hD : D'.toFinset = D.toFinset)
    (hc : (parameter_tokens c').toFinset = (parameter_tokens c).toFinset)
    (hd : (parameter_tokens d').toFinset = (parameter_tokens d).toFinset) :
    capabilities_to_load D' c' d' = capabilities_to_load D c d := by
  apply ascending_ext (ascending_capabilities_to_load _ _ _) (ascending_capabilities_to_load _ _ _)
  intro y
  have hD' : y ∈ D' ↔ y ∈ D := by
    rw [← List.mem_toFinset, hD, List.mem_toFinset]
  have hc' : y ∈ parameter_tokens c' ↔ y ∈ parameter_tokens c := by
    rw [← List.mem_toFinset, hc, List.mem_toFinset]
  have hd' : y ∈ parameter_tokens d' ↔ y ∈ parameter_tokens d := by
    rw [← List.mem_toFinset, hd, List.mem_toFinset]
  rw [mem_capabilities_to_load, mem_capabilities_to_load, hD', hc', hd']

theorem nodup_of_ascending {s : List CppString} (hs : Ascending s) : s.Nodup := by
  unfold Ascending at hs
  refine List.Pairwise.imp ?_ hs
  intro a b hab e
  subst e
  rw [strLt_irrefl] at hab
  exact absurd hab (by simp)

/-! ## The final set, the loading loop and the registry -/

/-- Claim C1.  The set that `configureCapabilities` iterates over to load equals
`(set(D) ∪ set(A)) \ set(R)`, where `A` and `R` are the tokens of the `capabilities` and
`disable_capabilities` parameters; it holds no name twice; it is the same list for
inputs that denote the same three sets; a name in both `A` and `R` is absent; and
for `D = {A, B, C}`, `A = {D}`, `R = {B}` it is `{A, C, D}`. -/
theorem capabilities_to_load_eq_union_sdiff (D : List CppString)
    (capabilities disable_capabilities : Option CppString) :
    (capabilities_to_load D capabilities disable_capabilities).toFinset =
        (D.toFinset ∪ (parameter_tokens capabilities).toFinset) \
          (parameter_tokens disable_capabilities).toFinset ∧
      (capabilities_to_load D capabilities disable_capabilities).Nodup ∧
      (∀ (D' : List CppString) (c' d' : Option CppString),
        D'.toFinset = D.toFinset →
        (parameter_tokens c').toFinset = (parameter_tokens capabilities).toFinset →
        (parameter_tokens d').toFinset = (parameter_tokens disable_capabilities).toFinset →
        capabilities_to_load D' c' d' =
          capabilities_to_load D capabilities disable_capabilities) ∧
      (∀ y, y ∈ parameter_tokens capabilities → y ∈ parameter_tokens disable_capabilities →
        y ∉ capabilities_to_load D capabilities disable_capabilities) ∧
      capabilities_to_load ["A".toList, "B".toList, "C".toList] (some "D".toList)
        (some "B".toList) = ["A".toList, "C".toList, "D".toList] := by
  refine ⟨?_, nodup_of_ascending (ascending_capabilities_to_load _ _ _), ?_, ?_, by decide⟩
  · ext y
    simp only [List.mem_toFinset, Finset.mem_sdiff, Finset.mem_union, mem_capabilities_to_load]
  · intro D' c' d' hD hc hd
    exact capabilities_to_load_congr D D' capabilities c' disable_capabilities d' hD hc hd
  · intro y _ hR h
    exact ((mem_capabilities_to_load _ _ _ y).mp h).2 hR

/-- Instance of C1: the defaults in another order and with a repetition, and option
strings with repeated names and extra spaces, give the same list to load. -/
theorem capabilities_to_load_eq_union_sdiff_witness :
    capabilities_to_load ["C".toList, "A".toList, "B".toList, "A".toList]
        (some " D  D".toList) (some "B B ".toList) =
      capabilities_to_load ["A".toList, "B".toList, "C".toList] (some "D".toList)
        (some "B".toList) :=
  (capabilities_to_load_eq_union_sdiff ["A".toList, "B".toList, "C".toList] (some "D".toList)
    (some "B".toList)).2.2.1 ["C".toList, "A".toList, "B".toList, "A".toList]
    (some " D  D".toList) (some "B B ".toList) (by decide) (by decide) (by decide)

/-- Claim C2, as stated, fails: with the final set `{X, Y, Z}` and a loader whose
creation of `X` throws an exception that is not a `pluginlib::PluginlibException`,
the exception leaves `configureCapabilities`; `Y` and `Z` are never attempted and
nothing is registered, and no failure is recorded. -/
theorem other_exception_aborts_loading :
    (configureCapabilities (.returns loader_X_throws_other)
        ["Z".toList, "X".toList, "Y".toList] none none ⟨none, none, []⟩).thrown =
        some (.other "std::runtime_error in the constructor") ∧
      (configureCapabilities (.returns loader_X_throws_other)
        ["Z".toList, "X".toList, "Y".toList] none none ⟨none, none, []⟩).self.capabilities_ = [] ∧
      tried_names (configureCapabilities (.returns loader_X_throws_other)
        ["Z".toList, "X".toList, "Y".toList] none none ⟨none, none, []⟩) = ["X".toList] ∧
      failed_names (configureCapabilities (.returns loader_X_throws_other)
        ["Z".toList, "X".toList, "Y".toList] none none ⟨none, none, []⟩) = [] := by
  decide

/-- Claim C2, amended.  When every load that fails does so with a
`pluginlib::PluginlibException`, `configureCapabilities` returns normally, attempts
every name of the final set, registers exactly the instances of the names whose load
succeeds, and logs an error for exactly the names whose load fails. -/
theorem pluginlib_failures_are_isolated (loader : ClassLoader) (defaults : List CppString)
    (capabilities disable_capabilities : Option CppString) (context_ : Option MoveGroupContext)
    (h : ∀ n ∈ capabilities_to_load defaults capabilities disable_capabilities,
      load_escape loader n = none) :
    (configureCapabilities (.returns loader) defaults capabilities disable_capabilities
        ⟨context_, none, []⟩).thrown = none ∧
      tried_names (configureCapabilities (.returns loader) defaults capabilities
        disable_capabilities ⟨context_, none, []⟩) =
        capabilities_to_load defaults capabilities disable_capabilities ∧
      (configureCapabilities (.returns loader) defaults capabilities disable_capabilities
        ⟨context_, none, []⟩).self.capabilities_ =
        (capabilities_to_load defaults capabilities disable_capabilities).filterMap
          (load_ok loader) ∧
      failed_names (configureCapabilities (.returns loader) defaults capabilities
        disable_capabilities ⟨context_, none, []⟩) =
        (capabilities_to_load defaults capabilities disable_capabilities).filter
          (fun n => (load_error loader n).isSome) ∧
      (∀ n ∈ capabilities_to_load defaults capabilities disable_capabilities,
        (load_ok loader n).isSome = !(load_error loader n).isSome) := by
  obtain ⟨h1, h2, h3, h4⟩ := configureCapabilities_returns loader defaults capabilities
    disable_capabilities context_ none
  rw [attempted_eq_of_no_escape loader _ h] at h1 h2 h3
  refine ⟨?_, h2, h1, h3, ?_⟩
  · rw [h4]
    exact (first_escape_eq_none_iff loader _).mpr h
  · intro n hn
    have hn' := h n hn
    unfold load_escape at hn'
    unfold load_ok load_error
    cases hc : loader.createUniqueInstance n with
    | throws e =>
      cases e with
      | pluginlib what => simp
      | other what => simp [hc] at hn'
    | returns cap =>
      cases hi : cap.init_throws with
      | none => simp [hi]
      | some e =>
        cases e with
        | pluginlib what => simp [hi]
        | other what => simp [hc, hi] at hn'

/-- Instance of C2: the loader fails for `X` with a pluginlib exception and succeeds
for `Y` and `Z`; the active capabilities are those of `Y` and `Z`, the only failure
is `X`. -/
theorem pluginlib_failures_are_isolated_witness :
    (configureCapabilities (.returns loader_X_unknown) [] (some "Z X Y".toList) none
        ⟨none, none, []⟩).self.capabilities_ = [plain_capability "Y", plain_capability "Z"] ∧
      failed_names (configureCapabilities (.returns loader_X_unknown) []
        (some "Z X Y".toList) none ⟨none, none, []⟩) = ["X".toList] :=
  have h := pluginlib_failures_are_isolated loader_X_unknown [] (some "Z X Y".toList) none none
    (by decide)
  ⟨h.2.2.1.trans (by decide), h.2.2.2.1.trans (by decide)⟩

/-- Claim C10.  With a loader constructed, the load attempts of `configureCapabilities`
are an initial segment of the final set in strictly ascending order of `std::string`
(all of it when no exception leaves the call), the same for inputs that denote the
same sets; the registry holds, in that order, the instances of the attempted names
whose load succeeded: these names are strictly ascending, without repetition, members
of the final set, and no more than the final set has. -/
theorem registry_lists_loaded_names_ascending (loader : ClassLoader) (defaults : List CppString)
    (capabilities disable_capabilities : Option CppString)
    (context_ : Option MoveGroupContext) :
    Ascending (capabilities_to_load defaults capabilities disable_capabilities) ∧
      tried_names (configureCapabilities (.returns loader) defaults capabilities
          disable_capabilities ⟨context_, none, []⟩) <+:
        capabilities_to_load defaults capabilities disable_capabilities ∧
      ((configureCapabilities (.returns loader) defaults capabilities disable_capabilities
          ⟨context_, none, []⟩).thrown = none →
        tried_names (configureCapabilities (.returns loader) defaults capabilities
          disable_capabilities ⟨context_, none, []⟩) =
        capabilities_to_load defaults capabilities disable_capabilities) ∧
      (∀ (D' : List CppString) (c' d' : Option CppString),
        D'.toFinset = defaults.toFinset →
        (parameter_tokens c').toFinset = (parameter_tokens capabilities).toFinset →
        (parameter_tokens d').toFinset = (parameter_tokens disable_capabilities).toFinset →
        tried_names (configureCapabilities (.returns loader) D' c' d' ⟨context_, none, []⟩) =
          tried_names (configureCapabilities (.returns loader) defaults capabilities
            disable_capabilities ⟨context_, none, []⟩)) ∧
      (configureCapabilities (.returns loader) defaults capabilities disable_capabilities
          ⟨context_, none, []⟩).self.capabilities_ =
        ((tried_names (configureCapabilities (.returns loader) defaults capabilities
          disable_capabilities ⟨context_, none, []⟩)).filter
            (fun n => (load_ok loader n).isSome)).filterMap (load_ok loader) ∧
      (configureCapabilities (.returns loader) defaults capabilities disable_capabilities
          ⟨context_, none, []⟩).self.capabilities_.length =
        ((tried_names (configureCapabilities (.returns loader) defaults capabilities
          disable_capabilities ⟨context_, none, []⟩)).filter
            (fun n => (load_ok loader n).isSome)).length ∧
      Ascending ((tried_names (configureCapabilities (.returns loader) defaults capabilities
          disable_capabilities ⟨context_, none, []⟩)).filter
            (fun n => (load_ok loader n).isSome)) ∧
      ((tried_names (configureCapabilities (.returns loader) defaults capabilities
          disable_capabilities ⟨context_, none, []⟩)).filter
            (fun n => (load_ok loader n).isSome)).Nodup ∧
      (∀ n ∈ (tried_names (configureCapabilities (.returns loader) defaults capabilities
          disable_capabilities ⟨context_, none, []⟩)).filter
            (fun n => (load_ok loader n).isSome),
        n ∈ capabilities_to_load defaults capabilities disable_capabilities) ∧
      (configureCapabilities (.returns loader) defaults capabilities disable_capabilities
          ⟨context_, none, []⟩).self.capabilities_.length ≤
        (capabilities_to_load defaults capabilities disable_capabilities).length := by
  obtain ⟨h1, h2, -, h4⟩ := configureCapabilities_returns loader defaults capabilities
    disable_capabilities context_ none
  have hasc := ascending_capabilities_to_load defaults capabilities disable_capabilities
  have hpre := attempted_prefix loader
    (capabilities_to_load defaults capabilities disable_capabilities)
  have hsub : ((attempted loader
      (capabilities_to_load defaults capabilities disable_capabilities)).filter
        (fun n => (load_ok loader n).isSome)).Sublist
      (capabilities_to_load defaults capabilities disable_capabilities) :=
    List.Sublist.trans (List.filter_sublist _) hpre.sublist
  have hloaded : Ascending ((attempted loader
      (capabilities_to_load defaults capabilities disable_capabilities)).filter
        (fun n => (load_ok loader n).isSome)) := List.Pairwise.sublist hsub hasc
  rw [h2, h1]
  refine ⟨hasc, hpre, ?_, ?_, (filterMap_filter_isSome _ _).symm,
    length_filterMap_eq_length_filter _ _, hloaded, nodup_of_ascending hloaded,
    fun n hn => hsub.subset hn, ?_⟩
  · intro hthrown
    rw [h4] at hthrown
    exact attempted_eq_of_no_escape loader _ ((first_escape_eq_none_iff loader _).mp hthrown)
  · intro D' c' d' hD hc hd
    rw [(configureCapabilities_returns loader D' c' d' context_ none).2.1,
      capabilities_to_load_congr defaults D' capabilities c' disable_capabilities d' hD hc hd]
  · rw [length_filterMap_eq_length_filter]
    exact hsub.length_le

/-- Instance of C10: two spellings of the same request are attempted in the same,
ascending, order. -/
theorem registry_lists_loaded_names_ascending_witness :
    tried_names (configureCapabilities (.returns loader_X_unknown)
        ["b".toList, "a".toList] (some "Z  X Y X".toList) (some "a".toList)
        ⟨none, none, []⟩) =
      tried_names (configureCapabilities (.returns loader_X_unknown)
        ["a".toList, "b".toList] (some "X Y Z".toList) (some "a a".toList)
        ⟨none, none, []⟩) :=
  (registry_lists_loaded_names_ascending loader_X_unknown ["a".toList, "b".toList]
    (some "X Y Z".toList) (some "a a".toList) none).2.2.2.1
    ["b".toList, "a".toList] (some "Z  X Y X".toList) (some "a".toList)
    (by decide) (by decide) (by decide)

/-! ## Readiness report -/

/-- Claim C4, as stated, fails: with a context that is not ready, `status()` reports
nothing at all, whatever the number of capabilities; it does not report "not ready". -/
theorem status_silent_when_context_not_ready :
    status ⟨some ⟨true, true, false⟩, none, []⟩ = [] ∧
      status ⟨some ⟨true, true, false⟩, none, [plain_capability "Y"]⟩ = [] := by
  decide

/-- Claim C4, amended.  `status()` prints the notice that planning can start when the
context is ready and at least one capability is registered, the notice that no
capability is loaded when the context is ready and none is registered, nothing when
the context exists and is not ready, and logs the error that no context was created
only when the registry has no context object. -/
theorem status_report (self : MoveGroupExe) :
    (∀ context, self.context_ = some context → context.status = true →
        self.capabilities_ ≠ [] → status self = [.printf_start_planning]) ∧
      (∀ context, self.context_ = some context → context.status = true →
        self.capabilities_ = [] → status self = [.printf_no_capabilities]) ∧
      (∀ context, self.context_ = some context → context.status = false →
        status self = []) ∧
      (self.context_ = none → status self = [.error_no_context]) := by
  refine ⟨?_, ?_, ?_, ?_⟩
  · intro context hc hs hne
    cases hl : self.capabilities_ with
    | nil => exact absurd hl hne
    | cons a l => simp [status, hc, hs, hl]
  · intro context hc hs he
    simp [status, hc, hs, he]
  · intro context hc hs
    simp [status, hc, hs]
  · intro hc
    simp [status, hc]

/-- Instance of C4: the loader fails for `X` only, the context is ready, and the
registry built from the request `{X, Y, Z}` reports that planning can start. -/
theorem status_report_witness :
    status (configureCapabilities (.returns loader_X_unknown) [] (some "X Y Z".toList) none
      ⟨some ⟨true, true, true⟩, none, []⟩).self = [.printf_start_planning] :=
  (status_report (configureCapabilities (.returns loader_X_unknown) [] (some "X Y Z".toList)
    none ⟨some ⟨true, true, true⟩, none, []⟩).self).1 ⟨true, true, true⟩ (by decide) (by decide)
    (by decide)

/-! ## The polling loop -/

theorem poll_loop_skip {T : Type} (default_value : T) (ticks : Nat → PollTick)
    (remote : CppString → Option T) (param_name : CppString) (n fuel i : Nat)
    (evs : List Event)
    (h : ∀ j, j < n → (ticks (i + j)).service_available = false ∧ (ticks (i + j)).ok = true) :
    poll_loop default_value ticks remote param_name (fuel + n) i evs =
      poll_loop default_value ticks remote param_name fuel (i + n) (evs ++ waiting_passes n) := by
  induction n generalizing i evs with
  | zero => simp [waiting_passes]
  | succ n ih =>
    have h0 := h 0 (Nat.succ_pos n)
    rw [Nat.add_zero] at h0
    have hrest : ∀ j, j < n → (ticks (i + 1 + j)).service_available = false ∧
        (ticks (i + 1 + j)).ok = true := by
      intro j hj
      have := h (j + 1) (Nat.succ_lt_succ hj)
      rwa [show i + (j + 1) = i + 1 + j by omega] at this
    rw [show fuel + (n + 1) = (fuel + n) + 1 by omega]
    simp only [poll_loop, h0.1, h0.2]
    rw [ih (i + 1) _ hrest]
    simp [waiting_passes, Nat.add_assoc, Nat.add_comm 1 n]

/-- The polling loop ends: when the waits before pass `N` fail without cancellation
and pass `N` finds the service or sees the cancellation, any `fuel` above `N` gives a
result. -/
theorem fetch_settles {T : Type} (default_value : T) (ticks : Nat → PollTick)
    (remote : CppString → Option T) (param_name : CppString) (N fuel : Nat)
    (hwait : ∀ j, j < N → (ticks j).service_available = false ∧ (ticks j).ok = true)
    (hend : (ticks N).service_available = true ∨ (ticks N).ok = false)
    (hfuel : N < fuel) :
    ∃ v evs, getParameterFromRemoteNode default_value ticks remote param_name fuel =
      some (v, evs) := by
  obtain ⟨k, rfl⟩ : ∃ k, fuel = (k + 1) + N := ⟨fuel - N - 1, by omega⟩
  have hskip := poll_loop_skip default_value ticks remote param_name N (k + 1) 0 []
    (by simpa using hwait)
  simp only [Nat.zero_add, List.nil_append] at hskip
  rw [getParameterFromRemoteNode, hskip]
  cases ha : (ticks N).service_available with
  | true =>
    refine ⟨(remote param_name).getD default_value,
      waiting_passes N ++ [.wait_for_service, .get_parameter param_name], ?_⟩
    simp [poll_loop, ha]
  | false =>
    have hok : (ticks N).ok = false := by
      rcases hend with h | h
      · rw [ha] at h; exact absurd h (by simp)
      · exact h
    refine ⟨default_value, waiting_passes N ++ [.wait_for_service, .error_interrupted], ?_⟩
    simp [poll_loop, ha, hok]

/-- Claim C6, as stated, fails: with the cancellation flag set from the start, the
function still waits for the peer's parameter service; when that wait succeeds it
reads the parameter and returns the peer's value, not the default, and when the wait
fails the peer has been contacted all the same. -/
theorem cancelled_fetch_still_contacts_peer :
    getParameterFromRemoteNode ([] : CppString) peer_ready_cancelled urdf_parameters
        "robot_description".toList 1 =
      some ("<robot/>".toList,
        [.wait_for_service, .get_parameter "robot_description".toList]) ∧
    getParameterFromRemoteNode ([] : CppString) peer_absent_cancelled urdf_parameters
        "robot_description".toList 1 =
      some ([], [.wait_for_service, .error_interrupted]) := by
  decide

/-- Claim C6, amended.  When the cancellation flag is already set at the first pass,
the function performs exactly one wait for the peer's parameter service: if the wait
fails it returns `T()` without a further wait and without reading the parameter, if
the wait succeeds it reads the parameter and returns what `get_parameter` yields.
Cancellation is read only after a wait that failed. -/
theorem cancelled_fetch_waits_once {T : Type} (default_value : T) (ticks : Nat → PollTick)
    (remote : CppString → Option T) (param_name : CppString) (fuel : Nat)
    (hcancel : (ticks 0).ok = false) (hfuel : 0 < fuel) :
    getParameterFromRemoteNode default_value ticks remote param_name fuel =
      if (ticks 0).service_available then
        some ((remote param_name).getD default_value,
          [.wait_for_service, .get_parameter param_name])
      else some (default_value, [.wait_for_service, .error_interrupted]) := by
  obtain ⟨k, rfl⟩ : ∃ k, fuel = k + 1 := ⟨fuel - 1, by omega⟩
  simp [getParameterFromRemoteNode, poll_loop, hcancel]

/-- Instance of C6 amended: a peer that never answers, the process cancelled from the
start. -/
theorem cancelled_fetch_waits_once_witness :
    getParameterFromRemoteNode ([] : CppString) peer_absent_cancelled urdf_parameters
        "robot_description".toList 5 =
      some ([], [.wait_for_service, .error_interrupted]) :=
  (cancelled_fetch_waits_once ([] : CppString) peer_absent_cancelled urdf_parameters
    "robot_description".toList 5 (by decide) (by decide)).trans (by decide)

/-! ## The process -/

/-- Claim C3, as stated, fails: when the constructor of the plugin loader throws a
`pluginlib::PluginlibException`, `main` still publishes the debug information, reports
readiness, runs the executor and returns 0. -/
theorem loader_failure_does_not_abort_startup :
    main world_loader_fails 1 =
      some (.returned 0,
        [.wait_for_service, .get_parameter "robot_description".toList,
          .info_debug_on, .start_monitors,
          .fatal_plugin_loader "package not found",
          .publishDebugInformation true,
          .printf_no_capabilities,
          .executor_spin, .shutdown]) := by
  decide

/-- Claim C3, amended.  When the constructor of the plugin loader throws a
`pluginlib::PluginlibException`, `configureCapabilities` logs it as fatal and returns:
no load is attempted and no capability is registered.  Startup goes on: when the
fetch of `robot_description` ends at pass `N` and a planning scene exists, `main`
reports readiness (with no capabilities), runs the executor and returns 0. -/
theorem loader_failure_loads_nothing_and_startup_goes_on (w : World) (N fuel : Nat)
    (what : String)
    (hwait : ∀ j, j < N → (w.ticks j).service_available = false ∧ (w.ticks j).ok = true)
    (hend : (w.ticks N).service_available = true ∨ (w.ticks N).ok = false)
    (hfuel : N < fuel)
    (hscene : w.has_planning_scene = true)
    (hloader : w.new_loader = .throws (.pluginlib what)) :
    (MoveGroupExe.construct w (debug_flag w.argv)).self.capabilities_ = [] ∧
      tried_names (MoveGroupExe.construct w (debug_flag w.argv)) = [] ∧
      (MoveGroupExe.construct w (debug_flag w.argv)).events = [.fatal_plugin_loader what] ∧
      ∃ str evs,
        getParameterFromRemoteNode ([] : CppString) w.ticks w.robot_state_publisher
          "robot_description".toList fuel = some (str, evs) ∧
        main w fuel =
          some (.returned 0,
            evs ++ [.info_debug_on, .start_monitors, .fatal_plugin_loader what,
                .publishDebugInformation true]
              ++ (if w.context_status then [.printf_no_capabilities] else [])
              ++ [.executor_spin, .shutdown]) := by
  refine ⟨?_, ?_, ?_, ?_⟩
  · simp [MoveGroupExe.construct, configureCapabilities, hloader]
  · simp [MoveGroupExe.construct, configureCapabilities, hloader, tried_names,
      Event.loading_name]
  · simp [MoveGroupExe.construct, configureCapabilities, hloader]
  · obtain ⟨str, evs, hfetch⟩ := fetch_settles ([] : CppString) w.ticks w.robot_state_publisher
      "robot_description".toList N fuel hwait hend hfuel
    refine ⟨str, evs, hfetch, ?_⟩
    simp only [main, hfetch, hscene, MoveGroupExe.construct, configureCapabilities, hloader,
      debug_flag, status]
    cases w.context_status <;> simp

/-- Instance of C3 amended: the peer answers the first wait, the planning scene
exists, and the constructor of the plugin loader throws. -/
theorem loader_failure_loads_nothing_and_startup_goes_on_witness :
    (MoveGroupExe.construct world_loader_fails
        (debug_flag world_loader_fails.argv)).self.capabilities_ = [] ∧
      (MoveGroupExe.construct world_loader_fails (debug_flag world_loader_fails.argv)).events =
        [.fatal_plugin_loader "package not found"] :=
  have h := loader_failure_loads_nothing_and_startup_goes_on world_loader_fails 0 1
    "package not found" (by decide) (by decide) (by decide) (by decide) rfl
  ⟨h.1, h.2.2.1⟩

/-- Claim C7, as stated, fails: without a planning scene `main` logs an error and
returns 0. -/
theorem missing_scene_returns_zero :
    main world_no_scene 1 =
      some (.returned 0,
        [.wait_for_service, .get_parameter "robot_description".toList,
          .error_scene_not_configured]) := by
  decide

/-- Claim C7, amended.  Every code `main` returns is 0.  When the planning scene
monitor has no planning scene and the fetch of `robot_description` ends at pass `N`,
`main` logs that the planning scene is not configured, builds no registry, does not
run the executor, and returns 0. -/
theorem main_returns_zero_also_without_scene (w : World) (N fuel : Nat)
    (hwait : ∀ j, j < N → (w.ticks j).service_available = false ∧ (w.ticks j).ok = true)
    (hend : (w.ticks N).service_available = true ∨ (w.ticks N).ok = false)
    (hfuel : N < fuel) :
    (∀ code events, main w fuel = some (.returned code, events) → code = 0) ∧
      (w.has_planning_scene = false →
        ∃ str evs,
          getParameterFromRemoteNode ([] : CppString) w.ticks w.robot_state_publisher
            "robot_description".toList fuel = some (str, evs) ∧
          main w fuel = some (.returned 0, evs ++ [.error_scene_not_configured])) := by
  constructor
  · intro code events h
    unfold main at h
    split at h
    · exact absurd h (by simp)
    · split_ifs at h
      · dsimp only at h
        split at h
        · simp at h
        · simp only [Option.some.injEq, Prod.mk.injEq, Exit.returned.injEq] at h
          exact h.1.symm
      · simp only [Option.some.injEq, Prod.mk.injEq, Exit.returned.injEq] at h
        exact h.1.symm
  · intro hscene
    obtain ⟨str, evs, hfetch⟩ := fetch_settles ([] : CppString) w.ticks w.robot_state_publisher
      "robot_description".toList N fuel hwait hend hfuel
    refine ⟨str, evs, hfetch, ?_⟩
    unfold main
    rw [hfetch]
    simp [hscene]

/-- Instance of C7 amended: a start without a planning scene, the peer answering the
first wait. -/
theorem main_returns_zero_also_without_scene_witness :
    world_no_scene.has_planning_scene = false ∧
      ∃ str evs,
        getParameterFromRemoteNode ([] : CppString) world_no_scene.ticks
          world_no_scene.robot_state_publisher "robot_description".toList 1 = some (str, evs) ∧
        main world_no_scene 1 = some (.returned 0, evs ++ [.error_scene_not_configured]) :=
  ⟨by decide,
    (main_returns_zero_also_without_scene world_no_scene 0 1 (by decide) (by decide)
      (by decide)).2 (by decide)⟩

set_option maxRecDepth 100000 in
/-- Claim C9 on the code: the argument list holds no `--debug`, the scan of the
arguments leaves `debug` false, and yet the flag `main` uses is true: the context is
built with `debug` true and `publishDebugInformation(true)` is called. -/
theorem debug_flag_true_without_option :
    debug_after_scan world_no_debug_option.argv = false ∧
      debug_flag world_no_debug_option.argv = true ∧
      (MoveGroupExe.construct world_no_debug_option
        (debug_flag world_no_debug_option.argv)).self.context_ = some ⟨true, true, true⟩ ∧
      main world_no_debug_option 1 =
        some (.returned 0,
          [.wait_for_service, .get_parameter "robot_description".toList,
            .info_debug_on, .start_monitors,
            .printf_loading "X".toList, .error_loading "X".toList "class X is not declared",
            .printf_loading "Y".toList,
            .info_using ["Y"],
            .publishDebugInformation true,
            .printf_start_planning,
            .executor_spin, .shutdown]) := by
  decide

/-! ## The tokenizer -/

theorem dropWhile_head_false (p : Char → Bool) :
    ∀ (s : List Char) (c : Char) (cs : List Char), s.dropWhile p = c :: cs → p c = false
  | [], _, _, h => by simp at h
  | a :: s, c, cs, h => by
    by_cases ha : p a = true
    · rw [List.dropWhile_cons_of_pos ha] at h
      exact dropWhile_head_false p s c cs h
    · rw [List.dropWhile_cons_of_neg ha] at h
      obtain ⟨rfl, -⟩ := List.cons.inj h
      simpa using ha

theorem splitOnP_eq_run_cons (p : Char → Bool) (s : List Char) :
    s.splitOnP p = s.takeWhile (fun e => !p e) :: pieces_after_run p s := by
  induction s with
  | nil => rfl
  | cons a s ih =>
    rw [List.splitOnP_cons]
    by_cases ha : p a = true
    · simp [ha, pieces_after_run, List.takeWhile, List.dropWhile]
    · have ha' : p a = false := by simpa using ha
      rw [if_neg ha, ih]
      simp [pieces_after_run, List.takeWhile, List.dropWhile, ha']

theorem pieces_nil (p : Char → Bool) : pieces p [] = [] := rfl

theorem pieces_cons_of_pos (p : Char → Bool) (a : Char) (s : List Char) (ha : p a = true) :
    pieces p (a :: s) = pieces p s := by
  simp [pieces, List.splitOnP_cons, ha]

theorem pieces_dropWhile (p : Char → Bool) (s : List Char) :
    pieces p (s.dropWhile p) = pieces p s := by
  induction s with
  | nil => rfl
  | cons a s ih =>
    by_cases ha : p a = true
    · rw [List.dropWhile_cons_of_pos ha, ih, pieces_cons_of_pos p a s ha]
    · rw [List.dropWhile_cons_of_neg ha]

theorem filter_pieces_after_run (p : Char → Bool) (s : List Char) :
    (pieces_after_run p s).filter (fun piece => !piece.isEmpty) =
      pieces p (s.dropWhile (fun e => !p e)) := by
  induction s with
  | nil => rfl
  | cons a s ih =>
    by_cases ha : p a = true
    · simp [pieces_after_run, List.dropWhile, ha, pieces]
    · have ha' : p a = false := by simpa using ha
      have h1 : pieces_after_run p (a :: s) = pieces_after_run p s := by
        simp [pieces_after_run, List.dropWhile, ha']
      have h2 : (a :: s).dropWhile (fun e => !p e) = s.dropWhile (fun e => !p e) := by
        simp [List.dropWhile, ha']
      rw [h1, h2, ih]

theorem pieces_cons_of_neg (p : Char → Bool) (c : Char) (cs : List Char) (hc : p c = false) :
    pieces p (c :: cs) =
      (c :: cs).takeWhile (fun e => !p e) :: pieces p ((c :: cs).dropWhile (fun e => !p e)) := by
  have hne : ((c :: cs).takeWhile (fun e => !p e)).isEmpty = false := by
    simp [List.takeWhile, hc]
  rw [← filter_pieces_after_run]
  conv_lhs => rw [pieces, splitOnP_eq_run_cons, List.filter_cons]
  simp [hne]

theorem tokenizer_iter_eq_pieces (dropped_delims : List Char) :
    ∀ (fuel : Nat) (s : List Char), s.length < fuel →
      tokenizer_iter dropped_delims fuel s = pieces (is_dropped dropped_delims) s
  | 0, _, h => absurd h (Nat.not_lt_zero _)
  | fuel + 1, s, h => by
    rw [← pieces_dropWhile]
    have hlen : (s.dropWhile (is_dropped dropped_delims)).length ≤ s.length :=
      (List.dropWhile_sublist _).length_le
    cases hd : s.dropWhile (is_dropped dropped_delims) with
    | nil => simp [tokenizer_iter, char_separator_call, hd, pieces_nil]
    | cons c cs =>
      have hc := dropWhile_head_false _ s c cs hd
      rw [hd] at hlen
      have hrest : ((c :: cs).dropWhile (fun e => !is_dropped dropped_delims e)).length <
          fuel := by
        have h1 : (c :: cs).dropWhile (fun e => !is_dropped dropped_delims e) =
            cs.dropWhile (fun e => !is_dropped dropped_delims e) := by
          simp [List.dropWhile, hc]
        have h2 : (cs.dropWhile (fun e => !is_dropped dropped_delims e)).length ≤ cs.length :=
          (List.dropWhile_sublist _).length_le
        rw [h1]
        simp only [List.length_cons] at hlen
        omega
      rw [pieces_cons_of_neg _ c cs hc]
      simp only [tokenizer_iter, char_separator_call, hd]
      rw [tokenizer_iter_eq_pieces dropped_delims fuel _ hrest]

theorem is_dropped_sep : is_dropped sep = fun c => c == ' ' := by
  funext c
  simp only [is_dropped, sep, List.contains, List.elem]
  cases h : c == ' ' <;> rfl

theorem mem_pieces (p : Char → Bool) :
    ∀ (n : Nat) (s : List Char), s.length < n → ∀ t ∈ pieces p s, t ≠ [] ∧ ∀ c ∈ t, p c = false
  | 0, _, h => absurd h (Nat.not_lt_zero _)
  | n + 1, s, h => by
    intro t ht
    rw [← pieces_dropWhile] at ht
    have hlen : (s.dropWhile p).length ≤ s.length := (List.dropWhile_sublist _).length_le
    cases hd : s.dropWhile p with
    | nil => rw [hd] at ht; simp [pieces_nil] at ht
    | cons c cs =>
      have hc := dropWhile_head_false _ s c cs hd
      rw [hd] at ht hlen
      rw [pieces_cons_of_neg _ c cs hc] at ht
      rcases List.mem_cons.mp ht with rfl | ht
      · constructor
        · simp [List.takeWhile, hc]
        · intro e he
          simpa using List.mem_takeWhile_imp he
      · have h1 : (c :: cs).dropWhile (fun e => !p e) = cs.dropWhile (fun e => !p e) := by
          simp [List.dropWhile, hc]
        have h2 : (cs.dropWhile (fun e => !p e)).length ≤ cs.length :=
          (List.dropWhile_sublist _).length_le
        rw [h1] at ht
        simp only [List.length_cons] at hlen
        exact mem_pieces p n _ (by omega) t ht

/-- Claim C8, as stated, fails: a tab or a newline does not separate names; only the
space does. -/
theorem tab_and_newline_do_not_separate :
    parameter_tokens (some "a\tb\nc d".toList) = ["a\tb\nc".toList, "d".toList] := by
  decide

/-- Claim C8, amended.  The tokens of an option string are exactly the maximal runs of
characters other than the space `' '`: no token is empty and none holds a space, so
leading, trailing and repeated spaces are ignored; an empty or missing option gives no
name.  The iteration ends: more steps than `s.length` change nothing. -/
theorem tokens_are_maximal_runs_of_non_space (s : CppString) :
    parameter_tokens (some s) = maximal_runs ' ' s ∧
      (∀ t ∈ parameter_tokens (some s), t ≠ [] ∧ ' ' ∉ t) ∧
      (∀ fuel, s.length < fuel → tokenizer_iter sep fuel s = parameter_tokens (some s)) ∧
      parameter_tokens (some []) = [] ∧
      parameter_tokens none = [] := by
  have h : parameter_tokens (some s) = pieces (fun c => c == ' ') s := by
    show tokenizer_iter sep (s.length + 1) s = _
    rw [tokenizer_iter_eq_pieces sep _ s (Nat.lt_succ_self _), is_dropped_sep]
  refine ⟨h, ?_, ?_, rfl, rfl⟩
  · intro t ht
    rw [h] at ht
    obtain ⟨hne, hsp⟩ := mem_pieces _ (s.length + 1) s (Nat.lt_succ_self _) t ht
    refine ⟨hne, fun hmem => ?_⟩
    simpa using hsp ' ' hmem
  · intro fuel hfuel
    rw [h, tokenizer_iter_eq_pieces sep fuel s hfuel, is_dropped_sep]

/-- Instance of C8 amended: more steps than the string is long change nothing. -/
theorem tokens_are_maximal_runs_of_non_space_witness :
    tokenizer_iter sep 20 "  a  b ".toList = parameter_tokens (some "  a  b ".toList) :=
  (tokens_are_maximal_runs_of_non_space "  a  b ".toList).2.2.1 20 (by decide)

end move_group
